import Mathlib

/-!
Shallow embedding of the game-completion tracker bot (src/bot.py).

Python dicts are modelled as insertion-ordered association lists, Python
floats as rationals (the spec demands exact, unrounded arithmetic), and
the external HTTP / LLM calls as `Except`-valued parameters supplied by
the environment.  Every definition below is translated directly from the
source; `orderForDisplaySpec` is the one spec-side definition, used to
compare the code's display ordering against the spec's description.
-/

namespace GameBot

/-- A stored achievement record, as built by `add_game` (src/bot.py:151-158).
`rarity : Option ℚ` models presence of the `"rarity"` key in the Python
dict (`show_game` guards with `"rarity" in ach`, so absence is possible in
general dict values even though `add_game` always writes the key). -/
structure Achievement where
  name : String
  description : String
  rarity : Option ℚ
  completed : Bool
  deriving Repr, DecidableEq

/-- A raw provider record as returned by the Steam adapter: `name` is
required (`ach["name"]`), `description` and `rarity` are read with
`.get`, hence optional. -/
structure RawAchievement where
  name : String
  description : Option String
  rarity : Option ℚ
  deriving Repr, DecidableEq

/-- One tracked game, the value stored at `self.data[user][game.lower()]`
(src/bot.py:142-148). -/
structure TrackedGame where
  name : String
  achievements : List (String × Achievement)
  guide : Option String
  progress : ℚ
  deriving Repr, DecidableEq

/-- A user's games: folded game name ↦ tracked game (insertion ordered). -/
abbrev UserGames := List (String × TrackedGame)

/-- The whole ledger `self.data`: user id ↦ that user's games. -/
abbrev Ledger := List (String × UserGames)

/-- Python dict assignment `m[key] = val`: update in place when the key is
present (keeping its position), append otherwise (insertion order). -/
def dictSet {β : Type} (m : List (String × β)) (key : String) (val : β) :
    List (String × β) :=
  if (m.lookup key).isSome then
    m.map (fun p => cond (p.1 == key) (key, val) p)
  else
    m ++ [(key, val)]

/-! ### Steam provider adapter (`fetch_steam_achievements`, src/bot.py:28-68) -/

/-- One entry of the Steam app list. -/
structure SteamApp where
  appid : Nat
  name : String

/-- One achievement entry of the game schema. -/
structure SchemaAch where
  name : String
  description : Option String

/-- Outcomes of the three HTTP calls the adapter makes.  An `Except.error`
models a genuine transport/parse failure of that call; `.ok` carries the
parsed payload (the schema result is already the possibly-empty
`achievements` list that the chained `.get(..., [])` extracts). -/
structure SteamEnv where
  applist : Except String (List SteamApp)
  schema : Nat → Except String (List SchemaAch)
  stats : Nat → Except String (List (String × ℚ))

/-- Python `str.lower()`: lowercase every character.  (Defined over the
character list so that it evaluates by kernel reduction.) -/
def strLower (s : String) : String := ⟨s.data.map Char.toLower⟩

/-- `List Char` version of Python substring containment. -/
def isPre : List Char → List Char → Bool
  | [], _ => true
  | _ :: _, [] => false
  | a :: as, b :: bs => a == b && isPre as bs

/-- Python `needle in haystack` on strings (substring containment). -/
def substrIn (needle haystack : String) : Bool :=
  (List.range (haystack.data.length + 1)).any
    (fun i => isPre needle.data (haystack.data.drop i))

/-- The app-list scan (src/bot.py:38-42): first app whose lowercased name
contains the lowercased query, taking its appid. -/
def findGameId (apps : List SteamApp) (game_name : String) : Option Nat :=
  (apps.find? (fun app => substrIn (strLower game_name) (strLower app.name))).map
    SteamApp.appid

/-- The rarity-attachment loop (src/bot.py:60-63): for each schema
achievement, every matching stat overwrites `rarity`, so the last
matching stat wins; with no match the key stays absent. -/
def attachRarity (stats : List (String × ℚ)) (a : SchemaAch) : RawAchievement :=
  { name := a.name
    description := a.description
    rarity := ((stats.filter (fun st => st.1 == a.name)).getLast?).map Prod.snd }

/-- The body of the adapter's `try` block (src/bot.py:31-65).  Python's
`if not game_id` also treats appid 0 as "not found". -/
def fetchBody (env : SteamEnv) (game_name : String) :
    Except String (List RawAchievement) :=
  match env.applist with
  | .error e => .error e
  | .ok apps =>
    match findGameId apps game_name with
    | none => .ok []
    | some gid =>
      if gid = 0 then .ok []
      else
        match env.schema gid with
        | .error e => .error e
        | .ok schemaAchs =>
          match env.stats gid with
          | .error e => .error e
          | .ok stats => .ok (schemaAchs.map (attachRarity stats))

/-- `fetch_steam_achievements` (src/bot.py:28-68): the whole body is
wrapped in `try/except Exception: return []`, so the function always
returns a list and never raises past its boundary. -/
def fetch_steam_achievements (env : SteamEnv) (game_name : String) :
    List RawAchievement :=
  match fetchBody env game_name with
  | .ok l => l
  | .error _ => []

/-! ### Building the stored game (`add_game`, src/bot.py:120-193) -/

/-- The per-record storage step of the achievement loop
(src/bot.py:152-158): missing description and rarity are filled with
defaults via `.get`, `completed` starts false. -/
def mkStoredAchievement (r : RawAchievement) : Achievement :=
  { name := r.name
    description := r.description.getD "No description available"
    rarity := some (r.rarity.getD 0)
    completed := false }

/-- The `enumerate(achievements, 1)` loop (src/bot.py:151-158): record i
(1-based) is stored under the string id `toString i`; no deduplication of
any kind is performed. -/
def buildAchievements (raws : List RawAchievement) :
    List (String × Achievement) :=
  raws.enum.map (fun p => (toString (p.1 + 1), mkStoredAchievement p.2))

/-- Observable outcome of `add_game` for the ledger model. -/
inductive AddResult
  | alreadyTracked
  | added (count : Nat)
  | manualMode
  deriving Repr, DecidableEq

/-- `add_game` (src/bot.py:120-193) as a ledger transformer.  The fetch
cannot fail (it returns a list in all cases); `guideResult` is the
outcome of the `generate_guide` call, which has no internal exception
handling, so its failure lands in the outer `except` branch
(src/bot.py:178-193) — which sends a "Manual Mode" message but creates no
entry and calls no `save_data`. -/
def add_game (data : Ledger) (user_id game_name : String) (env : SteamEnv)
    (guideResult : Except String String) : Ledger × AddResult :=
  let data1 := if (data.lookup user_id).isSome then data
               else data ++ [(user_id, [])]
  let userGames := (data1.lookup user_id).getD []
  if (userGames.lookup (strLower game_name)).isSome then
    (data1, .alreadyTracked)
  else
    let achievements := fetch_steam_achievements env game_name
    match guideResult with
    | .error _ => (data1, .manualMode)
    | .ok guide =>
      let entry : TrackedGame :=
        { name := game_name
          achievements := buildAchievements achievements
          guide := some guide
          progress := 0 }
      (dictSet data1 user_id (dictSet userGames (strLower game_name) entry),
        .added achievements.length)

/-! ### Progress computation (`show_game`, src/bot.py:208-213) -/

/-- `sum(1 for ach in achievements.values() if ach["completed"])`. -/
def countCompleted (achs : List (String × Achievement)) : Nat :=
  achs.countP (fun p => p.2.completed)

/-- The percentage computed by `show_game` (src/bot.py:208-213):
`(completed / total) * 100` when the dict is non-empty, else 0. -/
def computePercentage (achs : List (String × Achievement)) : ℚ :=
  if achs.isEmpty then 0
  else ((countCompleted achs : ℚ) / (achs.length : ℚ)) * 100

/-! ### Display ordering (`show_game`, src/bot.py:229-247) -/

/-- Stable insertion into a sorted list: the new element (earlier in the
original sequence) goes before any element it compares `le` to. -/
def insertBy {α : Type} (le : α → α → Bool) (x : α) : List α → List α
  | [] => [x]
  | y :: ys => cond (le x y) (x :: y :: ys) (y :: insertBy le x ys)

/-- Stable sort (Python's `sorted` is stable; any stable sort with the
same key order produces the same sequence). -/
def sortBy {α : Type} (le : α → α → Bool) : List α → List α
  | [] => []
  | x :: xs => insertBy le x (sortBy le xs)

/-- The Python sort key `(-x[1]["completed"], x[1].get("rarity", 0))`
(src/bot.py:232): booleans are ints, so completed gives -1. -/
def codeKey (p : String × Achievement) : Int × ℚ :=
  (-(if p.2.completed then 1 else 0), p.2.rarity.getD 0)

/-- Lexicographic comparison of Python key tuples. -/
def tupLe (a b : Int × ℚ) : Bool :=
  if a.1 = b.1 then decide (a.2 ≤ b.2) else decide (a.1 < b.1)

/-- Element order induced by `codeKey`. -/
def codeLe (p q : String × Achievement) : Bool := tupLe (codeKey p) (codeKey q)

/-- `sorted_achievements` (src/bot.py:230-233). -/
def sorted_achievements (achs : List (String × Achievement)) :
    List (String × Achievement) :=
  sortBy codeLe achs

/-- The order in which achievements actually appear in the embed
(src/bot.py:236-274): the sorted list is split into the incomplete and
completed groups, and the "Remaining" section is rendered before the
"Completed" section. -/
def displayOrder (achs : List (String × Achievement)) :
    List (String × Achievement) :=
  (sorted_achievements achs).filter (fun p => !p.2.completed)
    ++ (sorted_achievements achs).filter (fun p => p.2.completed)

/-- Spec-side key: completion status ascending (incomplete = 0 first),
then rarity ascending with missing rarity treated as 0. -/
def specKey (p : String × Achievement) : Int × ℚ :=
  ((if p.2.completed then 1 else 0), p.2.rarity.getD 0)

/-- Spec-side element order. -/
def specLe (p q : String × Achievement) : Bool := tupLe (specKey p) (specKey q)

/-- Modelled from the spec: `orderForDisplay` as §4.3 describes it — a
stable sort, primary key completion status ascending, secondary key
rarity ascending with missing rarity treated as 0. -/
def orderForDisplaySpec (achs : List (String × Achievement)) :
    List (String × Achievement) :=
  sortBy specLe achs

/-! ### Toggling (`toggle_achievement`, src/bot.py:287-323) -/

/-- Typed failures of the check command. -/
inductive TrackErr
  | notTracked
  | achievementNotFound
  deriving Repr, DecidableEq

/-- `achievement["completed"] = not achievement["completed"]`. -/
def flipAch (a : Achievement) : Achievement := { a with completed := !a.completed }

/-- The in-place flip of the entry stored under `id` (keys produced by
`buildAchievements` are distinct, as in a Python dict). -/
def toggleUpdate (achs : List (String × Achievement)) (id : String) :
    List (String × Achievement) :=
  achs.map (fun p => cond (p.1 == id) (p.1, flipAch p.2) p)

/-- `toggle_achievement` (src/bot.py:287-323) as a ledger transformer:
returns the (possibly updated) in-memory ledger together with either a
typed failure (src/bot.py:293-299, which mutate nothing and persist
nothing) or the new completion flag and the recomputed percentage
(src/bot.py:301-311). -/
def toggle_achievement (data : Ledger) (user_id game_name achievement_id : String) :
    Ledger × Except TrackErr (Bool × ℚ) :=
  let gkey := (strLower game_name)
  match data.lookup user_id with
  | none => (data, .error .notTracked)
  | some games =>
    match games.lookup gkey with
    | none => (data, .error .notTracked)
    | some g =>
      match g.achievements.lookup achievement_id with
      | none => (data, .error .achievementNotFound)
      | some a =>
        let achs2 := toggleUpdate g.achievements achievement_id
        let g2 := { g with achievements := achs2 }
        let pct := ((countCompleted achs2 : ℚ) / (achs2.length : ℚ)) * 100
        (dictSet data user_id (dictSet games gkey g2), .ok (!a.completed, pct))

/-! ### Concrete witness data -/

/-- An environment in which every HTTP call suffers a transport failure. -/
def envFail : SteamEnv :=
  { applist := .error "transport"
    schema := fun _ => .error "transport"
    stats := fun _ => .error "transport" }

/-- An environment whose catalog holds one game that matches nothing we
query for. -/
def envNoMatch : SteamEnv :=
  { applist := .ok [{ appid := 10, name := "Half-Life" }]
    schema := fun _ => .ok []
    stats := fun _ => .ok [] }

/-- A raw record carrying only a name. -/
def bareRaw : RawAchievement := { name := "X", description := none, rarity := none }

/-- A concrete stored achievement. -/
def wAch : Achievement :=
  { name := "First Blood", description := "d", rarity := some 5, completed := false }

/-- A concrete tracked game holding `wAch` under id "1". -/
def wGame : TrackedGame :=
  { name := "Portal", achievements := [("1", wAch)], guide := some "guide text"
    progress := 0 }

/-- A concrete ledger: user "u" tracks `wGame` under the folded key. -/
def wData : Ledger := [("u", [("portal", wGame)])]

/-! ### C4 — progress percentage -/

/-- C4: for every game with N achievements of which K are completed, the
percentage computed by `show_game` equals `100*K/N` when `N > 0` and `0`
when `N = 0`, with exact (unrounded) rational arithmetic and `K ≤ N`
automatically.  (`(K/N)*100 = 100*K/N` in ℚ.) -/
theorem C4_computeProgress (achs : List (String × Achievement)) :
    computePercentage achs =
      (if achs.length = 0 then 0
       else 100 * (countCompleted achs : ℚ) / (achs.length : ℚ)) ∧
    countCompleted achs ≤ achs.length := by
  constructor
  · unfold computePercentage
    cases achs with
    | nil => simp
    | cons a l =>
      rw [if_neg (by simp), if_neg (by simp)]
      ring
  · exact List.countP_le_length _

/-! ### C6 — missing provider fields are defaulted, not omitted -/

/-- C6 counterexample: a raw record that reports no rarity is stored with
`rarity = some 0` — the `"rarity"` key is present with the default value
0 (src/bot.py:155), not absent as the claim states. -/
theorem C6_rarity_defaulted_counterexample :
    (mkStoredAchievement bareRaw).rarity = some 0 ∧
    (mkStoredAchievement bareRaw).rarity ≠ none := by
  refine ⟨rfl, ?_⟩
  intro h
  simp [mkStoredAchievement, bareRaw] at h

/-- C6 amended: fields the provider does not report are filled with
defaults in the stored achievement — missing rarity becomes 0 and missing
description becomes "No description available"; the rarity key is never
left absent. -/
theorem C6_fields_defaulted (r : RawAchievement)
    (h1 : r.rarity = none) (h2 : r.description = none) :
    (mkStoredAchievement r).rarity = some 0 ∧
    (mkStoredAchievement r).description = "No description available" ∧
    (mkStoredAchievement r).rarity ≠ none := by
  refine ⟨?_, ?_, ?_⟩ <;> simp [mkStoredAchievement, h1, h2]

/-- Witness for C6's amended theorem at a concrete rarity-less record. -/
theorem C6_fields_defaulted_witness :
    (mkStoredAchievement bareRaw).rarity = some 0 ∧
    (mkStoredAchievement bareRaw).description = "No description available" ∧
    (mkStoredAchievement bareRaw).rarity ≠ none :=
  C6_fields_defaulted bareRaw rfl rfl

/-! ### C3 — no deduplication is performed -/

/-- C3 counterexample: a provider response with two records named "X"
yields a stored achievement mapping with two entries named "X"
(ids "1" and "2"), refuting "the aggregated list never contains two
entries with the same name". -/
theorem C3_dedup_counterexample :
    ((buildAchievements [bareRaw, bareRaw]).filter
        (fun p => p.2.name == "X")).length = 2 ∧
    (buildAchievements [bareRaw, bareRaw]).map (fun p => p.2.name) = ["X", "X"] := by
  constructor <;> rfl

/-- C3 amended: `add_game` performs no deduplication at all — every
fetched record is stored under a fresh sequential id in provider order,
so records sharing a name are all kept. -/
theorem C3_no_dedup (raws : List RawAchievement) :
    (buildAchievements raws).map (fun p => p.2.name) = raws.map RawAchievement.name ∧
    (buildAchievements raws).length = raws.length := by
  constructor
  · simp only [buildAchievements, List.map_map]
    have h : ((fun p => p.2.name) ∘
        (fun p : Nat × RawAchievement => (toString (p.1 + 1), mkStoredAchievement p.2)))
        = (RawAchievement.name ∘ Prod.snd) := by
      funext p
      rfl
    rw [h, ← List.map_map, List.enum_map_snd]
  · simp [buildAchievements]

/-! ### C7 — the adapter never raises past its boundary -/

/-- C7 counterexample: with a genuine transport failure on the app-list
request, the adapter's body fails, yet `fetch_steam_achievements` returns
the empty list as a normal value instead of raising — refuting "raises an
error past its boundary if and only if a transport/parse failure
occurs". -/
theorem C7_raise_counterexample :
    fetchBody envFail "Portal" = Except.error "transport" ∧
    fetch_steam_achievements envFail "Portal" = [] :=
  ⟨rfl, rfl⟩

/-- C7 amended: the adapter returns an empty sequence when no catalog
entry matches, and it also returns an empty sequence — never raising past
its boundary — whenever its body suffers a transport/parse failure. -/
theorem C7_fetch_never_raises (env : SteamEnv) (game_name : String) :
    (∀ e, fetchBody env game_name = Except.error e →
      fetch_steam_achievements env game_name = []) ∧
    (∀ apps, env.applist = Except.ok apps →
      findGameId apps game_name = none →
      fetch_steam_achievements env game_name = []) := by
  constructor
  · intro e he
    simp [fetch_steam_achievements, he]
  · intro apps happ hfind
    simp [fetch_steam_achievements, fetchBody, happ, hfind]

/-- Witness for C7's amended theorem: the failing-transport environment
and a no-match query both return the empty list. -/
theorem C7_fetch_never_raises_witness :
    fetch_steam_achievements envFail "Portal" = [] ∧
    fetch_steam_achievements envNoMatch "zzz" = [] :=
  ⟨(C7_fetch_never_raises envFail "Portal").1 "transport" rfl,
   (C7_fetch_never_raises envNoMatch "zzz").2 [{ appid := 10, name := "Half-Life" }]
     rfl (by decide)⟩

/-! ### C2 — guide-generation failure prevents entry creation -/

/-- C2 (code bug evaluation): with every provider call failing by
transport error and guide generation failing, `add_game` takes the outer
`except` branch; it reports "Game Added (Manual Mode)" but the ledger
holds no entry for the game and nothing is persisted — the claimed
zero-achievement, no-guide entry is never created. -/
theorem C2_addGame_guide_failure_eval :
    add_game [] "u" "Portal" envFail (Except.error "api down")
      = ([("u", [])], AddResult.manualMode) ∧
    (((add_game [] "u" "Portal" envFail (Except.error "api down")).1.lookup "u").getD
        []).lookup "portal" = none := by
  constructor <;> rfl

/-! ### Association-list lemmas for the dict model -/

theorem lookup_append_of_none {β : Type} (m m2 : List (String × β)) (k : String)
    (h : m.lookup k = none) : (m ++ m2).lookup k = m2.lookup k := by
  induction m with
  | nil => simp
  | cons p ps ih =>
    obtain ⟨a, b⟩ := p
    cases hk : (k == a) with
    | true => simp [List.lookup, hk] at h
    | false =>
      simp only [List.lookup, hk] at h
      simpa [List.lookup, hk] using ih h

theorem lookup_map_set {β : Type} (m : List (String × β)) (k : String) (v : β)
    (h : (m.lookup k).isSome = true) :
    (m.map (fun p => cond (p.1 == k) (k, v) p)).lookup k = some v := by
  induction m with
  | nil => simp at h
  | cons p ps ih =>
    obtain ⟨a, b⟩ := p
    by_cases hk : a = k
    · subst hk
      simp [List.lookup]
    · have hk2 : (a == k) = false := beq_eq_false_iff_ne.mpr hk
      have hk3 : (k == a) = false := beq_eq_false_iff_ne.mpr (Ne.symm hk)
      simp only [List.lookup, hk3] at h
      simpa [List.lookup, hk2, hk3] using ih h

/-- After `m[k] = v`, looking up `k` gives `v`. -/
theorem lookup_dictSet {β : Type} (m : List (String × β)) (k : String) (v : β) :
    (dictSet m k v).lookup k = some v := by
  unfold dictSet
  by_cases h : (m.lookup k).isSome = true
  · rw [if_pos h]
    exact lookup_map_set m k v h
  · rw [if_neg h]
    have h2 : m.lookup k = none := by
      cases hc : m.lookup k with
      | none => rfl
      | some w => rw [hc] at h; simp at h
    rw [lookup_append_of_none m _ k h2]
    simp [List.lookup]

theorem lookup_some_pos (achs : List (String × Achievement)) (id : String)
    (a : Achievement) (h : achs.lookup id = some a) : 0 < achs.length := by
  cases achs with
  | nil => simp at h
  | cons p ps => simp

theorem flipAch_flipAch (a : Achievement) : flipAch (flipAch a) = a := by
  cases a
  simp [flipAch]

theorem toggleUpdate_length (achs : List (String × Achievement)) (id : String) :
    (toggleUpdate achs id).length = achs.length :=
  List.length_map _ _

theorem lookup_toggleUpdate (achs : List (String × Achievement)) (id : String)
    (a : Achievement) (h : achs.lookup id = some a) :
    (toggleUpdate achs id).lookup id = some (flipAch a) := by
  induction achs with
  | nil => simp at h
  | cons p ps ih =>
    obtain ⟨k, b⟩ := p
    by_cases hk : k = id
    · subst hk
      have hb : b = a := by simpa [List.lookup] using h
      subst hb
      simp [toggleUpdate, List.lookup]
    · have hk2 : (k == id) = false := beq_eq_false_iff_ne.mpr hk
      have hk3 : (id == k) = false := beq_eq_false_iff_ne.mpr (Ne.symm hk)
      simp only [List.lookup, hk3] at h
      simpa [toggleUpdate, List.lookup, hk2, hk3] using ih h

theorem toggleUpdate_twice (achs : List (String × Achievement)) (id : String) :
    toggleUpdate (toggleUpdate achs id) id = achs := by
  induction achs with
  | nil => rfl
  | cons p ps ih =>
    obtain ⟨k, b⟩ := p
    simp only [toggleUpdate, List.map_cons] at ih ⊢
    by_cases hk : k = id
    · subst hk
      simp [flipAch_flipAch, ih]
    · have hk2 : (k == id) = false := beq_eq_false_iff_ne.mpr hk
      simp [hk2, ih]

/-! ### C8 — unknown achievement id fails and changes nothing -/

/-- C8: when the game is tracked but the requested achievement id is
absent from its mapping, `toggle_achievement` fails with
`AchievementNotFound` and returns the ledger exactly as it was (no flag
flipped, nothing persisted — `save_data` is only reached on the success
path). -/
theorem C8_unknown_achievement (data : Ledger) (user game_name id : String)
    (games : UserGames) (g : TrackedGame)
    (h1 : data.lookup user = some games)
    (h2 : games.lookup (strLower game_name) = some g)
    (h3 : g.achievements.lookup id = none) :
    toggle_achievement data user game_name id =
      (data, Except.error TrackErr.achievementNotFound) := by
  simp only [toggle_achievement, h1, h2, h3]

/-- Witness for C8 at a concrete one-game ledger and the unknown id "99". -/
theorem C8_unknown_achievement_witness :
    wData.lookup "u" = some [("portal", wGame)] ∧
    toggle_achievement wData "u" "Portal" "99" =
      (wData, Except.error TrackErr.achievementNotFound) :=
  ⟨rfl, C8_unknown_achievement wData "u" "Portal" "99" [("portal", wGame)] wGame
    rfl (by decide) (by decide)⟩

/-! ### C9 — adding an already-tracked game fails and changes nothing -/

/-- C9: a second `add_game` for the same user and case-insensitively
folded game name returns `AlreadyTracked` and leaves the whole ledger —
in particular the first entry's achievements, flags and guide — exactly
as it was, before any provider or guide call is used. -/
theorem C9_already_tracked (data : Ledger) (user game_name : String)
    (env : SteamEnv) (guideResult : Except String String) (games : UserGames)
    (h1 : data.lookup user = some games)
    (h2 : (games.lookup (strLower game_name)).isSome = true) :
    add_game data user game_name env guideResult = (data, AddResult.alreadyTracked) := by
  simp only [add_game, h1, Option.isSome_some, if_true, Option.getD_some, h2]

/-- Witness for C9: re-adding "Portal" (tracked under "portal") rejects
and returns the ledger unchanged. -/
theorem C9_already_tracked_witness :
    wData.lookup "u" = some [("portal", wGame)] ∧
    add_game wData "u" "Portal" envFail (Except.ok "text")
      = (wData, AddResult.alreadyTracked) :=
  ⟨rfl, C9_already_tracked wData "u" "Portal" envFail (Except.ok "text")
    [("portal", wGame)] rfl (by decide)⟩

/-! ### C10 — the toggle recomputation never divides by zero -/

/-- C10: under the checked precondition that the requested id is present,
the achievement mapping is non-empty, so the `(completed / total) * 100`
recomputation after the flip divides by the non-zero total
`g.achievements.length`. -/
theorem C10_toggle_no_div_by_zero (data : Ledger) (user game_name id : String)
    (games : UserGames) (g : TrackedGame) (a : Achievement)
    (h1 : data.lookup user = some games)
    (h2 : games.lookup (strLower game_name) = some g)
    (h3 : g.achievements.lookup id = some a) :
    g.achievements.length ≠ 0 ∧ ((g.achievements.length : ℚ)) ≠ 0 ∧
    (toggle_achievement data user game_name id).2 =
      Except.ok (!a.completed,
        ((countCompleted (toggleUpdate g.achievements id) : ℚ)
          / ((g.achievements.length : ℚ))) * 100) := by
  have hpos : 0 < g.achievements.length := lookup_some_pos _ _ _ h3
  refine ⟨by omega, ?_, ?_⟩
  · exact_mod_cast Nat.cast_ne_zero.mpr (by omega)
  · simp only [toggle_achievement, h1, h2, h3, toggleUpdate_length]

/-- Witness for C10 at the concrete one-achievement ledger. -/
theorem C10_toggle_no_div_by_zero_witness :
    wGame.achievements.length ≠ 0 ∧ ((wGame.achievements.length : ℚ)) ≠ 0 ∧
    (toggle_achievement wData "u" "Portal" "1").2 =
      Except.ok (!wAch.completed,
        ((countCompleted (toggleUpdate wGame.achievements "1") : ℚ)
          / ((wGame.achievements.length : ℚ))) * 100) :=
  C10_toggle_no_div_by_zero wData "u" "Portal" "1" [("portal", wGame)] wGame wAch
    rfl (by decide) (by decide)

/-! ### C5 — toggling is an involution -/

/-- C5: toggling flips the stored `completed` flag unconditionally, and
toggling the same achievement twice restores both the flag and the
reported progress percentage to their original values: the second call
reports `a.completed` again, its percentage equals the game's original
`computePercentage`, and the game's achievement mapping in the final
ledger equals the original one. -/
theorem C5_toggle_involution (data : Ledger) (user game_name id : String)
    (games : UserGames) (g : TrackedGame) (a : Achievement)
    (h1 : data.lookup user = some games)
    (h2 : games.lookup (strLower game_name) = some g)
    (h3 : g.achievements.lookup id = some a) :
    ∃ data1 pct1 data2 pct2,
      toggle_achievement data user game_name id
        = (data1, Except.ok (!a.completed, pct1)) ∧
      toggle_achievement data1 user game_name id
        = (data2, Except.ok (a.completed, pct2)) ∧
      pct2 = computePercentage g.achievements ∧
      ∃ games2 g2, data2.lookup user = some games2 ∧
        games2.lookup (strLower game_name) = some g2 ∧
        g2.achievements = g.achievements := by
  have hpos : 0 < g.achievements.length := lookup_some_pos _ _ _ h3
  set gkey := strLower game_name with hgkey
  set achs1 := toggleUpdate g.achievements id with hachs1
  set g1 : TrackedGame := { g with achievements := achs1 } with hg1
  set games1 := dictSet games gkey g1 with hgames1
  set data1 := dictSet data user games1 with hdata1
  have e1 : toggle_achievement data user game_name id =
      (data1, Except.ok (!a.completed,
        ((countCompleted achs1 : ℚ) / ((achs1.length : ℚ))) * 100)) := by
    simp only [toggle_achievement, h1, h2, h3, hgkey, hachs1, hg1, hgames1, hdata1]
  have l1 : data1.lookup user = some games1 := lookup_dictSet _ _ _
  have l2 : games1.lookup gkey = some g1 := lookup_dictSet _ _ _
  have l3 : g1.achievements.lookup id = some (flipAch a) :=
    lookup_toggleUpdate _ _ _ h3
  have htw : toggleUpdate g1.achievements id = g.achievements := by
    show toggleUpdate (toggleUpdate g.achievements id) id = g.achievements
    exact toggleUpdate_twice _ _
  set g2 : TrackedGame := { g1 with achievements := toggleUpdate g1.achievements id }
    with hg2
  set games2 := dictSet games1 gkey g2 with hgames2
  set data2 := dictSet data1 user games2 with hdata2
  have e2 : toggle_achievement data1 user game_name id =
      (data2, Except.ok (a.completed,
        ((countCompleted (toggleUpdate g1.achievements id) : ℚ)
          / (((toggleUpdate g1.achievements id).length : ℚ))) * 100)) := by
    simp only [toggle_achievement, l1, l2, l3, hgkey, hg2, hgames2, hdata2,
      flipAch, Bool.not_not]
  refine ⟨data1, _, data2, _, e1, e2, ?_, games2, g2, lookup_dictSet _ _ _,
    lookup_dictSet _ _ _, by rw [hg2]; exact htw⟩
  rw [htw]
  unfold computePercentage
  rw [if_neg (by cases hg : g.achievements with
    | nil => rw [hg] at hpos; simp at hpos
    | cons x xs => simp [hg])]

/-- Witness for C5: toggling achievement "1" twice in the concrete ledger
restores the flag and the percentage. -/
theorem C5_toggle_involution_witness :
    ∃ data1 pct1 data2 pct2,
      toggle_achievement wData "u" "Portal" "1"
        = (data1, Except.ok (!wAch.completed, pct1)) ∧
      toggle_achievement data1 "u" "Portal" "1"
        = (data2, Except.ok (wAch.completed, pct2)) ∧
      pct2 = computePercentage wGame.achievements ∧
      ∃ games2 g2, data2.lookup "u" = some games2 ∧
        games2.lookup (strLower "Portal") = some g2 ∧
        g2.achievements = wGame.achievements :=
  C5_toggle_involution wData "u" "Portal" "1" [("portal", wGame)] wGame wAch
    rfl (by decide) (by decide)

/-! ### C1 — the display ordering is the spec's stable sort -/

/-- Comparison by rarity alone (missing rarity as 0). -/
def rarityLe (p q : String × Achievement) : Bool :=
  decide (p.2.rarity.getD 0 ≤ q.2.rarity.getD 0)

theorem mem_insertBy {α : Type} (le : α → α → Bool) (x : α) (l : List α) (a : α) :
    a ∈ insertBy le x l ↔ a = x ∨ a ∈ l := by
  induction l with
  | nil => simp [insertBy]
  | cons y ys ih =>
    cases h : le x y with
    | true => simp [insertBy, h, List.mem_cons]
    | false =>
      simp only [insertBy, h, cond_false, List.mem_cons, ih]
      tauto

theorem mem_sortBy {α : Type} (le : α → α → Bool) (l : List α) (a : α) :
    a ∈ sortBy le l ↔ a ∈ l := by
  induction l with
  | nil => simp [sortBy]
  | cons x xs ih => simp [sortBy, mem_insertBy, ih]

theorem insertBy_congr {α : Type} (le rle : α → α → Bool) (x : α) (B : List α)
    (h : ∀ b ∈ B, le x b = rle x b) : insertBy le x B = insertBy rle x B := by
  induction B with
  | nil => rfl
  | cons b bs ih =>
    have hb := h b (List.mem_cons_self b bs)
    cases hr : rle x b with
    | true => simp [insertBy, hb, hr]
    | false =>
      simp only [insertBy, hb, hr, cond_false]
      rw [ih (fun c hc => h c (List.mem_cons_of_mem b hc))]

/-- Inserting an element of the leading group into a grouped sorted list:
the insertion stays inside the leading group. -/
theorem insertBy_append_of_first {α : Type} (le rle : α → α → Bool) (x : α)
    (A B : List α)
    (hA : ∀ a ∈ A, le x a = rle x a)
    (hB : ∀ b ∈ B, le x b = true) :
    insertBy le x (A ++ B) = insertBy rle x A ++ B := by
  induction A with
  | nil =>
    cases B with
    | nil => rfl
    | cons b bs =>
      simp [insertBy, hB b (List.mem_cons_self b bs)]
  | cons a as ih =>
    have ha := hA a (List.mem_cons_self a as)
    cases hr : rle x a with
    | true => simp [insertBy, ha, hr]
    | false =>
      simp only [List.cons_append, insertBy, ha, hr, cond_false]
      exact congrArg (a :: ·) (ih (fun c hc => hA c (List.mem_cons_of_mem a hc)))

/-- Inserting an element of the trailing group: the whole leading group is
passed over and the insertion happens in the trailing group. -/
theorem insertBy_append_of_second {α : Type} (le rle : α → α → Bool) (x : α)
    (A B : List α)
    (hA : ∀ a ∈ A, le x a = false)
    (hB : ∀ b ∈ B, le x b = rle x b) :
    insertBy le x (A ++ B) = A ++ insertBy rle x B := by
  induction A with
  | nil => simpa using insertBy_congr le rle x B hB
  | cons a as ih =>
    simp only [List.cons_append, insertBy, hA a (List.mem_cons_self a as), cond_false]
    exact congrArg (a :: ·) (ih (fun c hc => hA c (List.mem_cons_of_mem a hc)))

/-- A stable sort whose order puts the `p`-elements strictly first and
compares as `rle` inside each group equals the two stably `rle`-sorted
groups concatenated. -/
theorem sortBy_group_split {α : Type} (le rle : α → α → Bool) (p : α → Bool)
    (hsame : ∀ x y, p x = p y → le x y = rle x y)
    (hfirst : ∀ x y, p x = true → p y = false → le x y = true)
    (hlast : ∀ x y, p x = false → p y = true → le x y = false)
    (l : List α) :
    sortBy le l =
      sortBy rle (l.filter p) ++ sortBy rle (l.filter (fun a => !p a)) := by
  induction l with
  | nil => rfl
  | cons x xs ih =>
    have hmemP : ∀ a ∈ sortBy rle (xs.filter p), p a = true := by
      intro a ha
      exact List.of_mem_filter ((mem_sortBy rle _ a).mp ha)
    have hmemN : ∀ a ∈ sortBy rle (xs.filter (fun a => !p a)), p a = false := by
      intro a ha
      have := List.of_mem_filter ((mem_sortBy rle _ a).mp ha)
      simpa using this
    cases hx : p x with
    | true =>
      have hfilP : (x :: xs).filter p = x :: xs.filter p := by
        simp [List.filter_cons, hx]
      have hfilN : (x :: xs).filter (fun a => !p a) = xs.filter (fun a => !p a) := by
        simp [List.filter_cons, hx]
      rw [hfilP, hfilN]
      simp only [sortBy]
      rw [ih]
      exact insertBy_append_of_first le rle x _ _
        (fun a ha => hsame x a (hx.trans (hmemP a ha).symm))
        (fun b hb => hfirst x b hx (hmemN b hb))
    | false =>
      have hfilP : (x :: xs).filter p = xs.filter p := by
        simp [List.filter_cons, hx]
      have hfilN : (x :: xs).filter (fun a => !p a)
          = x :: xs.filter (fun a => !p a) := by
        simp [List.filter_cons, hx]
      rw [hfilP, hfilN]
      simp only [sortBy]
      rw [ih]
      exact insertBy_append_of_second le rle x _ _
        (fun a ha => hlast x a hx (hmemP a ha))
        (fun b hb => hsame x b (hx.trans (hmemN b hb).symm))

/-- The code's sort key `(-completed, rarity)` puts completed entries
first and compares by rarity inside each completion group. -/
theorem sorted_achievements_split (achs : List (String × Achievement)) :
    sorted_achievements achs =
      sortBy rarityLe (achs.filter (fun q => q.2.completed))
        ++ sortBy rarityLe (achs.filter (fun q => !q.2.completed)) := by
  have h := sortBy_group_split codeLe rarityLe (fun q => q.2.completed)
    (fun x y hxy => by
      simp only [codeLe, codeKey, tupLe, rarityLe, hxy]
      simp)
    (fun x y hx hy => by
      simp only [codeLe, codeKey, tupLe, hx, hy]
      rw [if_neg (by decide)]
      decide)
    (fun x y hx hy => by
      simp only [codeLe, codeKey, tupLe, hx, hy]
      rw [if_neg (by decide)]
      decide)
    achs
  simpa [sorted_achievements] using h

/-- The spec's sort key `(completed, rarity)` puts incomplete entries
first and compares by rarity inside each completion group. -/
theorem orderForDisplaySpec_split (achs : List (String × Achievement)) :
    orderForDisplaySpec achs =
      sortBy rarityLe (achs.filter (fun q => !q.2.completed))
        ++ sortBy rarityLe (achs.filter (fun q => q.2.completed)) := by
  have h := sortBy_group_split specLe rarityLe (fun q => !q.2.completed)
    (fun x y hxy => by
      have hxy2 : x.2.completed = y.2.completed := by
        cases hx : x.2.completed <;> cases hy : y.2.completed <;>
          simp [hx, hy] at hxy ⊢
      simp only [specLe, specKey, tupLe, rarityLe, hxy2]
      simp)
    (fun x y hx hy => by
      have hx2 : x.2.completed = false := by simpa using hx
      have hy2 : y.2.completed = true := by simpa using hy
      simp only [specLe, specKey, tupLe, hx2, hy2]
      rw [if_neg (by decide)]
      decide)
    (fun x y hx hy => by
      have hx2 : x.2.completed = true := by simpa using hx
      have hy2 : y.2.completed = false := by simpa using hy
      simp only [specLe, specKey, tupLe, hx2, hy2]
      rw [if_neg (by decide)]
      decide)
    achs
  simpa [orderForDisplaySpec, Bool.not_not] using h

/-- C1: the ordering the embed displays — the stably-sorted achievements
split into the "Remaining" section followed by the "Completed" section —
is exactly the spec's `orderForDisplay`: a stable sort with primary key
completion status ascending (incomplete first), secondary key rarity
ascending with missing rarity treated as 0, ties kept in insertion
order.  Both sides are pure functions of the ledger state, so the result
is identical on every run. -/
theorem C1_displayOrder_eq_spec (achs : List (String × Achievement)) :
    displayOrder achs = orderForDisplaySpec achs := by
  have hC : ∀ a ∈ sortBy rarityLe (achs.filter (fun q => q.2.completed)),
      a.2.completed = true := by
    intro a ha
    have h2 := (mem_sortBy rarityLe _ a).mp ha
    simpa using List.of_mem_filter h2
  have hI : ∀ a ∈ sortBy rarityLe (achs.filter (fun q => !q.2.completed)),
      a.2.completed = false := by
    intro a ha
    have h2 := (mem_sortBy rarityLe _ a).mp ha
    simpa using List.of_mem_filter h2
  have e1 : (sortBy rarityLe (achs.filter (fun q => q.2.completed))).filter
      (fun p => !p.2.completed) = [] :=
    List.filter_eq_nil_iff.mpr (fun a ha => by simp [hC a ha])
  have e2 : (sortBy rarityLe (achs.filter (fun q => !q.2.completed))).filter
      (fun p => !p.2.completed)
      = sortBy rarityLe (achs.filter (fun q => !q.2.completed)) :=
    List.filter_eq_self.mpr (fun a ha => by simp [hI a ha])
  have e3 : (sortBy rarityLe (achs.filter (fun q => q.2.completed))).filter
      (fun p => p.2.completed)
      = sortBy rarityLe (achs.filter (fun q => q.2.completed)) :=
    List.filter_eq_self.mpr (fun a ha => by simp [hC a ha])
  have e4 : (sortBy rarityLe (achs.filter (fun q => !q.2.completed))).filter
      (fun p => p.2.completed) = [] :=
    List.filter_eq_nil_iff.mpr (fun a ha => by simp [hI a ha])
  rw [displayOrder, sorted_achievements_split, orderForDisplaySpec_split,
    List.filter_append, List.filter_append, e1, e2, e3, e4]
  simp

end GameBot
